import Mathlib

/-!
Shallow embedding of net-kourier's control-plane core: the gateway-snapshot
convergence checker (package kubernetes) and the ingress-to-envoy translator
(package generator). Definitions follow the Go source; collaborator calls
(HTTP transport, kubernetes clients, secret storage) are passed in as
explicit function-valued inputs so the pure control flow of the source is
preserved.
-/

namespace Kourier

/-! ## Convergence checker (package kubernetes) -/

/-- Constant `internalKourierPath` from the source. -/
def internalKourierPath : String := "/__internalkouriersnapshot"

/-- Constant `internalKourierDomain` from the source. -/
def internalKourierDomain : String := "internalkourier"

/-- Constant `internalKourierHeader` from the source. -/
def internalKourierHeader : String := "kourier-snapshot-id"

/-- Constant `httpPortInternal` from the source (uint32 8081). -/
def httpPortInternal : Nat := 8081

/-- A gateway pod, reduced to the one field the checker reads:
`pod.Status.PodIP`. -/
structure Pod where
  podIP : String
deriving DecidableEq

/-- An HTTP response as the probe observes it: status code and response
headers. Go's `resp.Header.Get` on a missing key returns the empty string,
mirrored by `headerGet` below. -/
structure HTTPResponse where
  statusCode : Nat
  headers : List (String × String)
deriving DecidableEq

/-- `resp.Header.Get key`: the first header with the key, or `""` when the
key is absent. -/
def headerGet (headers : List (String × String)) (key : String) : String :=
  match headers.find? (fun p => p.1 == key) with
  | some p => p.2
  | none => ""

/-- The request `buildInternalKourierRequest` constructs: method, URL,
Host header, and whether a body is attached (`http.NewRequest("GET", url, nil)`
attaches none). -/
structure HTTPRequest where
  method : String
  url : String
  host : String
  hasBody : Bool
deriving DecidableEq

/-- `buildInternalKourierRequest(ip)` from the source: a GET to
`http://{ip}:8081/__internalkouriersnapshot` with Host `internalkourier`
and nil body. -/
def buildInternalKourierRequest (ip : String) : HTTPRequest :=
  HTTPRequest.mk "GET"
    ("http://" ++ ip ++ ":" ++ toString httpPortInternal ++ internalKourierPath)
    internalKourierDomain
    false

/-- `getCurrentGWSnapshot(ip, client)` from the source. The HTTP transport
(`client.Do`) is abstracted as `net : HTTPRequest → Except String HTTPResponse`
(a transport error or a response). On status 200 the value of the
`kourier-snapshot-id` response header is returned; any other status is an
error carrying the numeric status code. -/
def getCurrentGWSnapshot (net : HTTPRequest → Except String HTTPResponse)
    (ip : String) : Except String String :=
  match net (buildInternalKourierRequest ip) with
  | Except.error e => Except.error e
  | Except.ok resp =>
    if resp.statusCode == 200 then
      Except.ok (headerGet resp.headers internalKourierHeader)
    else
      Except.error ("status code " ++ toString resp.statusCode)

/-- The body of the per-replica goroutine in `CheckGatewaySnapshot`: the
probe counts as in-sync exactly when `getCurrentGWSnapshot` succeeds and the
returned snapshot equals the expected one. -/
def probeInSync (net : HTTPRequest → Except String HTTPResponse)
    (snapshotID ip : String) : Bool :=
  match getCurrentGWSnapshot net ip with
  | Except.error _ => false
  | Except.ok currentSnapshot => currentSnapshot == snapshotID

/-- The ip-collection loop of `CheckGatewaySnapshot`: pods with a non-empty
`PodIP`, in order. -/
def gatewayIPs (gwPods : List Pod) : List String :=
  (gwPods.filter (fun pod => pod.podIP != "")).map Pod.podIP

/-- `CheckGatewaySnapshot(gwPods, snapshotID)` from the source. The
concurrent probes are embedded by evaluating each goroutine body against the
abstract transport `net`; `timedOut` is the outcome of
`waitTimeout(&wg, gatewaySyncTimeout)` (true when the deadline elapsed
before all probes finished). With no usable ip the function returns false
before probing; on timeout it returns false regardless of the in-sync tally;
otherwise it returns whether the tally equals the number of probed ips. -/
def CheckGatewaySnapshot (gwPods : List Pod) (snapshotID : String)
    (net : HTTPRequest → Except String HTTPResponse) (timedOut : Bool) : Bool :=
  let ips := gatewayIPs gwPods
  if ips.length == 0 then
    false
  else
    let inSync := (ips.filter (fun ip => probeInSync net snapshotID ip)).length
    if timedOut then
      false
    else
      inSync == ips.length

/-! ## Ingress translator (package generator) -/

/-- Outcome of a kubernetes get call, as the source distinguishes them:
success, `apierrors.IsNotFound`, or any other error. -/
inductive GetResult (α : Type) where
  | found : α → GetResult α
  | notFound : GetResult α
  | otherError : String → GetResult α
deriving DecidableEq

/-- `envoy.NewLBEndpoint(ip, port)`, interface-level: an address at a port. -/
structure LbEndpoint where
  ip : String
  port : Nat
deriving DecidableEq

/-- `envoy.NewCluster(name, connectTimeout, lbEndpoints, http2, STATIC)`,
interface-level: the arguments the translator passes. -/
structure Cluster where
  name : String
  connectTimeout : Nat
  lbEndpoints : List LbEndpoint
  http2 : Bool
deriving DecidableEq

/-- `envoy.NewWeightedCluster(name, weight, headers)`, interface-level. -/
structure WeightedCluster where
  name : String
  weight : Nat
  headers : List (String × String)
deriving DecidableEq

/-- `envoy.NewRoute(name, path, wrs, routeTimeout, attempts, perTryTimeout,
appendHeaders)`, interface-level. -/
structure Route where
  name : String
  path : String
  weightedClusters : List WeightedCluster
  timeout : Nat
  attempts : Nat
  perTryTimeout : Nat
  appendHeaders : List (String × String)
deriving DecidableEq

/-- A virtual host as `envoy.NewVirtualHost` /
`envoy.NewVirtualHostWithExtAuthz` build it: the ext-authz variant
additionally carries the context-extension map. -/
structure VirtualHost where
  name : String
  contextExtensions : Option (List (String × String))
  domains : List String
  routes : List Route
deriving DecidableEq

/-- `envoy.NewSNIMatch(hosts, certChain, privateKey)`, interface-level. -/
structure SNIMatch where
  hosts : List String
  certChain : String
  privateKey : String
deriving DecidableEq

/-- A service port: the fields the match loop reads (`port.Name`,
`port.Port`, `port.TargetPort.IntVal`). -/
structure ServicePort where
  name : String
  port : Int
  targetPort : Int
deriving DecidableEq

/-- `service.Spec.Ports`. -/
structure Service where
  ports : List ServicePort
deriving DecidableEq

/-- An endpoint subset, reduced to the addresses' IPs the translator reads. -/
structure EndpointSubset where
  addresses : List String
deriving DecidableEq

/-- `kubev1.Endpoints`: its subsets. -/
structure Endpoints where
  subsets : List EndpointSubset
deriving DecidableEq

/-- `v1alpha1.IngressTLS`: hosts and the referenced secret. -/
structure IngressTLS where
  hosts : List String
  secretNamespace : String
  secretName : String
deriving DecidableEq

/-- `v1alpha1.HTTPRetry`: attempts and optional per-try timeout. -/
structure IngressRetry where
  attempts : Nat
  perTryTimeout : Option Nat
deriving DecidableEq

/-- `v1alpha1.IngressBackendSplit`: target service, declared port
(`IntOrString`, both representations kept), weight and headers. -/
structure IngressSplit where
  serviceName : String
  serviceNamespace : String
  servicePortInt : Int
  servicePortName : String
  percent : Nat
  appendHeaders : List (String × String)
deriving DecidableEq

/-- `v1alpha1.HTTPIngressPath`. Durations are abstracted as `Nat`. -/
structure HTTPIngressPath where
  path : String
  splits : List IngressSplit
  timeout : Option Nat
  retries : Option IngressRetry
  appendHeaders : List (String × String)
deriving DecidableEq

/-- `v1alpha1.IngressRule`: hosts and HTTP paths. -/
structure IngressRule where
  hosts : List String
  paths : List HTTPIngressPath
deriving DecidableEq

/-- The ingress fields `translateIngress` reads: name, namespace, spec TLS,
spec rules, spec visibility (a string, empty when unset) and labels. -/
structure Ingress where
  name : String
  nsName : String
  tls : List IngressTLS
  rules : List IngressRule
  visibility : String
  labels : List (String × String)
deriving DecidableEq

/-- The collaborators `translateIngress` calls, as explicit functions:
`tracker.Track` (keyed by the tracked ref's namespace and name; absent
tracker modelled by `hasTracker = false`), `endpointsLister.Get`,
`kubeclient Services Get`, and `sslCreds` (secret fetch + parse; its code is
in the repository but outside src/, so it is an opaque collaborator input
here returning a certificate chain and private key or an error). -/
structure TranslatorEnv where
  hasTracker : Bool
  track : String → String → Except String Unit
  getEndpoints : String → String → GetResult Endpoints
  getService : String → String → GetResult Service
  sslCreds : String → String → Except String (String × String)

/-- `translatedIngress` from the source. -/
structure translatedIngress where
  ingressName : String
  ingressNamespace : String
  sniMatches : List SNIMatch
  routes : List Route
  clusters : List Cluster
  externalVirtualHosts : List VirtualHost
  internalVirtualHosts : List VirtualHost

/-- The fixed connect timeout (`5 * time.Second`) in seconds. -/
def connectTimeout : Nat := 5

/-- Go's `uint32(x)` for an int32 value: reduction modulo 2^32. -/
def uint32OfInt32 (x : Int) : Nat := (x.emod 4294967296).toNat

/-- `lbEndpointsForKubeEndpoints` from the source: every subset address at
the resolved target port, in order. -/
def lbEndpointsForKubeEndpoints (kubeEndpoints : Endpoints)
    (targetPort : Int) : List LbEndpoint :=
  kubeEndpoints.subsets.foldr
    (fun subset acc =>
      subset.addresses.map
        (fun ip => LbEndpoint.mk ip (uint32OfInt32 targetPort)) ++ acc)
    []

/-- The condition of the port-match loop: `port.Port == split.ServicePort.IntVal
|| port.Name == split.ServicePort.StrVal`. -/
def portMatches (split : IngressSplit) (port : ServicePort) : Bool :=
  port.port == split.servicePortInt || port.name == split.servicePortName

/-- The h2 protocol-upgrade test the loop applies to a matched port's name. -/
def isH2 (name : String) : Bool := name == "http2" || name == "h2c"

/-- The port-match loop of `translateIngress` (lines 267-274): `targetPort`
and `http2` start at their zero values and every matching service port
overwrites them; the loop has no break. -/
def matchServicePort (ports : List ServicePort) (split : IngressSplit) :
    Int × Bool :=
  ports.foldl
    (fun acc port =>
      if portMatches split port then (port.targetPort, isH2 port.name)
      else acc)
    (0, false)

/-- The tracking step for one split: with a tracker present, a `Track` error
triggers the break. -/
def trackBreaks (env : TranslatorEnv) (ingressNamespace : String)
    (split : IngressSplit) : Bool :=
  env.hasTracker &&
    (match env.track ingressNamespace split.serviceName with
     | Except.error _ => true
     | Except.ok _ => false)

/-- One iteration of the split loop of `translateIngress`: `none` when the
iteration hits a `break` (tracking failure, endpoints not found or error,
service not found or error); otherwise the cluster and weighted cluster the
iteration appends. -/
def resolveSplit (env : TranslatorEnv) (ingressNamespace path : String)
    (split : IngressSplit) : Option (Cluster × WeightedCluster) :=
  if trackBreaks env ingressNamespace split then none
  else
    match env.getEndpoints split.serviceNamespace split.serviceName with
    | GetResult.notFound => none
    | GetResult.otherError _ => none
    | GetResult.found endpoints =>
      match env.getService split.serviceNamespace split.serviceName with
      | GetResult.notFound => none
      | GetResult.otherError _ => none
      | GetResult.found service =>
        let tp := matchServicePort service.ports split
        let publicLbEndpoints := lbEndpointsForKubeEndpoints endpoints tp.1
        some
          (Cluster.mk (split.serviceName ++ path) connectTimeout
            publicLbEndpoints tp.2,
           WeightedCluster.mk (split.serviceName ++ path) split.percent
            split.appendHeaders)

/-- The split loop of `translateIngress` for one path: splits are processed
in order and a failing split breaks the loop, keeping what was already
appended (clusters go to the plan's cluster list, weighted clusters to the
path's `wrs`). -/
def processSplits (env : TranslatorEnv) (ingressNamespace path : String) :
    List IngressSplit → List Cluster × List WeightedCluster
  | [] => ([], [])
  | split :: rest =>
    match resolveSplit env ingressNamespace path split with
    | none => ([], [])
    | some cw =>
      let r := processSplits env ingressNamespace path rest
      (cw.1 :: r.1, cw.2 :: r.2)

/-- The path-defaulting both `translateIngress` and `createRouteForRevision`
apply: empty path means `/`. -/
def effectivePath (httpPath : HTTPIngressPath) : String :=
  if httpPath.path == "" then "/" else httpPath.path

/-- `createRouteForRevision` from the source. -/
def createRouteForRevision (routeName : String) (i : Nat)
    (httpPath : HTTPIngressPath) (wrs : List WeightedCluster) : Route :=
  Route.mk (routeName ++ "_" ++ toString i) (effectivePath httpPath) wrs
    (httpPath.timeout.getD 0)
    (match httpPath.retries with
     | none => 0
     | some r => r.attempts)
    (match httpPath.retries with
     | none => 0
     | some r => r.perTryTimeout.getD 0)
    httpPath.appendHeaders

/-- The path loop of `translateIngress` for one rule: clusters appended to
the plan and the rule's route list. A path whose split loop produced no
weighted clusters emits no route; otherwise one route is built via
`createRouteForRevision`. -/
def processPaths (env : TranslatorEnv) (ingressName ingressNamespace : String)
    (index : Nat) : List HTTPIngressPath → List Cluster × List Route
  | [] => ([], [])
  | p :: ps =>
    let cw := processSplits env ingressNamespace (effectivePath p) p.splits
    let rest := processPaths env ingressName ingressNamespace index ps
    (cw.1 ++ rest.1,
     if cw.2.isEmpty then rest.2
     else createRouteForRevision ingressName index p cw.2 :: rest.2)

/-- The `v1alpha1.IngressVisibilityExternalIP` constant. -/
def IngressVisibilityExternalIP : String := "ExternalIP"

/-- The `v1alpha1.IngressVisibilityClusterLocal` constant. -/
def IngressVisibilityClusterLocal : String := "ClusterLocal"

/-- Modelled from the spec: `knative.ExternalDomains` is code of this
repository that is not under src/. Per the spec, the rule's host set is
expanded into fully-qualified and wildcard-port forms (`host` and
`host:*`). -/
def ExternalDomains (rule : IngressRule) (localDomainName : String) :
    List String :=
  rule.hosts.foldr (fun h acc => h :: (h ++ ":*") :: acc) []

/-- Modelled from the spec: `knative.InternalDomains` is code of this
repository that is not under src/. Per the spec it is an internal-only
domain expansion (hosts under the cluster-local domain, in the same
`host`/`host:*` forms); the union with the external domains happens at the
call site in `translateIngress`. -/
def InternalDomains (rule : IngressRule) (localDomainName : String) :
    List String :=
  (rule.hosts.filter (fun h => h.endsWith localDomainName)).foldr
    (fun h acc => h :: (h ++ ":*") :: acc) []

/-- Modelled from the spec: `knative.RuleIsExternal` is code of this
repository that is not under src/. Per the spec, a rule is external exactly
when the effective visibility (the intent's visibility, defaulting to
cluster-local when unset) is the external value. -/
def RuleIsExternal (rule : IngressRule) (ingressVisibility : String) : Bool :=
  (if ingressVisibility == "" then IngressVisibilityClusterLocal
   else ingressVisibility) == IngressVisibilityExternalIP

/-- `mergeMapString` from the source, on maps modelled as association
lists: the result maps every key of `a` or `b`, values of `b` winning on a
shared key. -/
def mergeMapString (a b : List (String × String)) : List (String × String) :=
  a.filter (fun p => (b.find? (fun q => q.1 == p.1)).isNone) ++ b

/-- The virtual-host construction of `translateIngress` for one rule: the
external and internal variants, with the context-extension map exactly when
ext-authz is enabled. -/
def ruleVirtualHosts (ingress : Ingress) (localDomainName : String)
    (extAuthzEnabled : Bool) (rule : IngressRule) (ruleRoute : List Route) :
    VirtualHost × VirtualHost :=
  let externalDomains := ExternalDomains rule localDomainName
  let internalDomains := InternalDomains rule localDomainName ++ externalDomains
  if extAuthzEnabled then
    let visibility :=
      if ingress.visibility == "" then IngressVisibilityClusterLocal
      else ingress.visibility
    let contextExtensions :=
      mergeMapString [("client", "kourier"), ("visibility", visibility)]
        ingress.labels
    (VirtualHost.mk ingress.name (some contextExtensions) externalDomains
       ruleRoute,
     VirtualHost.mk ingress.name (some contextExtensions) internalDomains
       ruleRoute)
  else
    (VirtualHost.mk ingress.name none externalDomains ruleRoute,
     VirtualHost.mk ingress.name none internalDomains ruleRoute)

/-- `sniMatchFromIngressTLS` from the source: fetch and parse the referenced
secret via the collaborator; any error is returned as-is. -/
def sniMatchFromIngressTLS (env : TranslatorEnv) (ingressTLS : IngressTLS) :
    Except String SNIMatch :=
  match env.sslCreds ingressTLS.secretNamespace ingressTLS.secretName with
  | Except.error e => Except.error e
  | Except.ok creds => Except.ok (SNIMatch.mk ingressTLS.hosts creds.1 creds.2)

/-- The TLS loop of `translateIngress`: SNI matches accumulated in order,
the first error aborting the whole loop with that error. -/
def translateTLS (env : TranslatorEnv) :
    List IngressTLS → Except String (List SNIMatch)
  | [] => Except.ok []
  | t :: ts =>
    match sniMatchFromIngressTLS env t with
    | Except.error e => Except.error e
    | Except.ok sni =>
      match translateTLS env ts with
      | Except.error e => Except.error e
      | Except.ok rest => Except.ok (sni :: rest)

/-- The rule loop of `translateIngress`: per rule, the path loop runs, an
empty rule-route list aborts everything with the "ingress without routes"
error, domains and the two virtual hosts are built, the external one is
appended only for an external rule and the internal one always. Returns the
accumulated clusters, routes, external and internal virtual hosts. -/
def processRules (env : TranslatorEnv) (localDomainName : String)
    (ingress : Ingress) (index : Nat) (extAuthzEnabled : Bool) :
    List IngressRule →
      Except String
        (List Cluster × List Route × List VirtualHost × List VirtualHost)
  | [] => Except.ok ([], [], [], [])
  | rule :: rest =>
    let pr := processPaths env ingress.name ingress.nsName index rule.paths
    if pr.2.isEmpty then
      Except.error "ingress without routes"
    else
      let vhs := ruleVirtualHosts ingress localDomainName extAuthzEnabled rule
        pr.2
      match processRules env localDomainName ingress index extAuthzEnabled
          rest with
      | Except.error e => Except.error e
      | Except.ok r =>
        Except.ok
          (pr.1 ++ r.1, pr.2 ++ r.2.1,
           (if RuleIsExternal rule ingress.visibility then vhs.1 :: r.2.2.1
            else r.2.2.1),
           vhs.2 :: r.2.2.2)

/-- `translateIngress` from the source: the TLS loop, then the rule loop;
any error is returned with no plan. -/
def translateIngress (env : TranslatorEnv) (localDomainName : String)
    (ingress : Ingress) (index : Nat) (extAuthzEnabled : Bool) :
    Except String translatedIngress :=
  match translateTLS env ingress.tls with
  | Except.error e => Except.error e
  | Except.ok snis =>
    match processRules env localDomainName ingress index extAuthzEnabled
        ingress.rules with
    | Except.error e => Except.error e
    | Except.ok r =>
      Except.ok
        (translatedIngress.mk ingress.name ingress.nsName snis r.2.1 r.1
          r.2.2.1 r.2.2.2)

/-- The route list one rule ends with (`ruleRoute` in the source). -/
def ruleRouteOf (env : TranslatorEnv) (ingress : Ingress) (index : Nat)
    (rule : IngressRule) : List Route :=
  (processPaths env ingress.name ingress.nsName index rule.paths).2

/-- C1 helper: a filtered list keeps its length exactly when the predicate
holds everywhere. -/
theorem length_filter_eq_iff (l : List String) (p : String → Bool) :
    ((l.filter p).length = l.length) ↔ (∀ x ∈ l, p x = true) := by
  constructor
  · intro h
    rw [← List.filter_eq_self]
    exact (List.filter_sublist l).eq_of_length h
  · intro h
    rw [List.filter_eq_self.mpr h]

/-- **C1.** `CheckGatewaySnapshot` returns true exactly when there is at
least one probed replica address, the overall deadline did not elapse before
all probes finished, and every probed replica reported in-sync. In
particular an empty replica address list yields false, and a timeout yields
false even if every finished probe matched. -/
theorem checkGatewaySnapshot_unanimous (gwPods : List Pod) (snapshotID : String)
    (net : HTTPRequest → Except String HTTPResponse) (timedOut : Bool) :
    CheckGatewaySnapshot gwPods snapshotID net timedOut = true ↔
      (gatewayIPs gwPods ≠ [] ∧ timedOut = false ∧
        ∀ ip ∈ gatewayIPs gwPods, probeInSync net snapshotID ip = true) := by
  by_cases hips : gatewayIPs gwPods = []
  · simp [CheckGatewaySnapshot, hips]
  · have hlen : ((gatewayIPs gwPods).length == 0) = false := by
      simp [List.length_eq_zero, hips]
    cases timedOut with
    | true => simp [CheckGatewaySnapshot, hlen]
    | false =>
      simp only [CheckGatewaySnapshot, hlen, Bool.false_eq_true, if_false,
        beq_iff_eq]
      constructor
      · intro h
        exact ⟨hips, by simp, (length_filter_eq_iff _ _).mp h⟩
      · intro h
        exact (length_filter_eq_iff _ _).mpr h.2.2

/-- **C7.** The convergence probe is exactly a GET to
`http://{replicaAddress}:8081/__internalkouriersnapshot` with Host header
`internalkourier` and no body; it succeeds only on HTTP 200, returning the
`kourier-snapshot-id` header value (compared byte-for-byte against the
expected identifier by `probeInSync`), and any other status is a failure
carrying the numeric status code. -/
theorem internalKourierProbe_protocol (ip : String) (resp : HTTPResponse) :
    (buildInternalKourierRequest ip).method = "GET" ∧
    (buildInternalKourierRequest ip).url =
      "http://" ++ ip ++ ":" ++ "8081" ++ "/__internalkouriersnapshot" ∧
    (buildInternalKourierRequest ip).host = "internalkourier" ∧
    (buildInternalKourierRequest ip).hasBody = false ∧
    (∀ net : HTTPRequest → Except String HTTPResponse,
      net (buildInternalKourierRequest ip) = Except.ok resp →
        (resp.statusCode = 200 →
          getCurrentGWSnapshot net ip =
            Except.ok (headerGet resp.headers internalKourierHeader)) ∧
        (resp.statusCode ≠ 200 →
          getCurrentGWSnapshot net ip =
            Except.error ("status code " ++ toString resp.statusCode)) ∧
        (∀ snapshotID, resp.statusCode = 200 →
          probeInSync net snapshotID ip =
            (headerGet resp.headers internalKourierHeader == snapshotID))) := by
  refine ⟨rfl, rfl, rfl, rfl, ?_⟩
  intro net hnet
  have hcase : ∀ hs : resp.statusCode = 200,
      getCurrentGWSnapshot net ip =
        Except.ok (headerGet resp.headers internalKourierHeader) := by
    intro hs
    simp [getCurrentGWSnapshot, hnet, hs]
  refine ⟨hcase, ?_, ?_⟩
  · intro hs
    simp [getCurrentGWSnapshot, hnet, hs]
  · intro snapshotID hs
    simp [probeInSync, hcase hs]

/-- **C9.** A 200 response with no `kourier-snapshot-id` header yields the
empty string as the current snapshot with no error, so when the expected
identifier is the empty string such a replica counts as in-sync. -/
theorem status200_missingHeader_inSync (resp : HTTPResponse)
    (h200 : resp.statusCode = 200)
    (hmiss : ∀ p ∈ resp.headers, p.1 ≠ internalKourierHeader) :
    (∀ net : HTTPRequest → Except String HTTPResponse, ∀ ip,
      net (buildInternalKourierRequest ip) = Except.ok resp →
        getCurrentGWSnapshot net ip = Except.ok "" ∧
        probeInSync net "" ip = true) := by
  intro net ip hnet
  have hget : headerGet resp.headers internalKourierHeader = "" := by
    unfold headerGet
    have hfind : resp.headers.find? (fun p => p.1 == internalKourierHeader)
        = none := by
      rw [List.find?_eq_none]
      intro p hp
      simpa using hmiss p hp
    rw [hfind]
  have hsnap : getCurrentGWSnapshot net ip = Except.ok "" := by
    simp [getCurrentGWSnapshot, hnet, h200, hget]
  exact ⟨hsnap, by simp [probeInSync, hsnap]⟩

/-- Witness for C9 at a concrete response: status 200 with a single
unrelated header. -/
theorem status200_missingHeader_inSync_witness :
    getCurrentGWSnapshot
        (fun _ => Except.ok (HTTPResponse.mk 200 [("content-type", "text/plain")]))
        "10.0.0.7" = Except.ok "" ∧
    probeInSync
        (fun _ => Except.ok (HTTPResponse.mk 200 [("content-type", "text/plain")]))
        "" "10.0.0.7" = true := by
  exact status200_missingHeader_inSync
    (HTTPResponse.mk 200 [("content-type", "text/plain")]) rfl (by decide)
    (fun _ => Except.ok (HTTPResponse.mk 200 [("content-type", "text/plain")]))
    "10.0.0.7" rfl

/-- C2 helper: a rule whose route list comes out empty makes the rule loop
fail with the "ingress without routes" error. -/
theorem processRules_error_of_empty (env : TranslatorEnv)
    (localDomainName : String) (ingress : Ingress) (index : Nat)
    (extAuthzEnabled : Bool) :
    ∀ rules : List IngressRule,
      (∃ rule ∈ rules, ruleRouteOf env ingress index rule = []) →
      processRules env localDomainName ingress index extAuthzEnabled rules =
        Except.error "ingress without routes" := by
  intro rules
  induction rules with
  | nil => rintro ⟨rule, hmem, _⟩; cases hmem
  | cons a rest ih =>
    rintro ⟨rule, hmem, hempty⟩
    rcases List.mem_cons.mp hmem with heq | hmem2
    · subst heq
      have : (processPaths env ingress.name ingress.nsName index
          rule.paths).2.isEmpty = true := by
        simp [ruleRouteOf] at hempty
        simp [hempty]
      simp [processRules, this]
    · by_cases hemp : (processPaths env ingress.name ingress.nsName index
          a.paths).2.isEmpty
      · simp [processRules, hemp]
      · have hrec := ih ⟨rule, hmem2, hempty⟩
        simp [processRules, hemp, hrec]

/-- C2 helper: a successful rule loop implies every rule had a non-empty
route list. -/
theorem processRules_ok_nonempty (env : TranslatorEnv)
    (localDomainName : String) (ingress : Ingress) (index : Nat)
    (extAuthzEnabled : Bool) :
    ∀ rules r,
      processRules env localDomainName ingress index extAuthzEnabled rules =
        Except.ok r →
      ∀ rule ∈ rules, ruleRouteOf env ingress index rule ≠ [] := by
  intro rules
  induction rules with
  | nil => intro r _ rule hmem; cases hmem
  | cons a rest ih =>
    intro r hok rule hmem
    by_cases hemp : (processPaths env ingress.name ingress.nsName index
        a.paths).2.isEmpty
    · simp [processRules, hemp] at hok
    · rcases List.mem_cons.mp hmem with heq | hmem2
      · subst heq
        simp only [ruleRouteOf, ne_eq, ← List.isEmpty_iff]
        simp [hemp]
      · cases hrec : processRules env localDomainName ingress index
            extAuthzEnabled rest with
        | error e => simp [processRules, hemp, hrec] at hok
        | ok r0 => exact ih r0 hrec rule hmem2

/-- **C2.** Once the TLS loop has succeeded, an intent in which some rule
ends with zero route definitions translates to the explicit
"ingress without routes" error and no plan, and a returned plan implies
every rule had at least one route definition (no partial plan is ever
surfaced: the only success value is built after every rule passed the
check). -/
theorem translateIngress_no_empty_rule (env : TranslatorEnv)
    (localDomainName : String) (ingress : Ingress) (index : Nat)
    (extAuthzEnabled : Bool) (snis : List SNIMatch)
    (hTLS : translateTLS env ingress.tls = Except.ok snis) :
    ((∃ rule ∈ ingress.rules, ruleRouteOf env ingress index rule = []) →
      translateIngress env localDomainName ingress index extAuthzEnabled =
        Except.error "ingress without routes") ∧
    (∀ ti,
      translateIngress env localDomainName ingress index extAuthzEnabled =
        Except.ok ti →
      ∀ rule ∈ ingress.rules, ruleRouteOf env ingress index rule ≠ []) := by
  constructor
  · intro hex
    unfold translateIngress
    rw [hTLS, processRules_error_of_empty env localDomainName ingress index
      extAuthzEnabled ingress.rules hex]
  · intro ti hok rule hmem
    unfold translateIngress at hok
    rw [hTLS] at hok
    cases hpr : processRules env localDomainName ingress index extAuthzEnabled
        ingress.rules with
    | error e => rw [hpr] at hok; cases hok
    | ok r =>
      exact processRules_ok_nonempty env localDomainName ingress index
        extAuthzEnabled ingress.rules r hpr rule hmem

/-- A collaborator environment used by concrete examples: no tracker, no
endpoints or services, no secrets. -/
def envEmpty : TranslatorEnv :=
  TranslatorEnv.mk false (fun _ _ => Except.ok ())
    (fun _ _ => GetResult.notFound) (fun _ _ => GetResult.notFound)
    (fun _ _ => Except.error "no secret")

/-- A concrete ingress whose single rule has no paths, so its rule-route
list is empty. -/
def ingressNoRoutes : Ingress :=
  Ingress.mk "ing" "default" [] [IngressRule.mk ["h.example.com"] []] "" []

/-- Witness for C2: the concrete no-path ingress translates to the
"ingress without routes" error. -/
theorem translateIngress_no_empty_rule_witness :
    translateIngress envEmpty "example.com" ingressNoRoutes 0 false =
      Except.error "ingress without routes" := by
  have h := translateIngress_no_empty_rule envEmpty "example.com"
    ingressNoRoutes 0 false [] rfl
  exact h.1 ⟨IngressRule.mk ["h.example.com"] [], by decide, rfl⟩

/-- **C3 (amended).** When one split's tracking call, endpoint fetch or
service fetch fails, the split loop of that path is abandoned by a `break`:
the failing split and every subsequent split of the same path are skipped,
while the clusters and weighted clusters already built for the preceding
splits of the path are kept (so the path and rule are not aborted by the
failure when an earlier split already produced a weighted cluster ref). -/
theorem processSplits_break_skips_rest (env : TranslatorEnv)
    (ingressNamespace path : String) (pre post : List IngressSplit)
    (s : IngressSplit)
    (hfail : resolveSplit env ingressNamespace path s = none) :
    processSplits env ingressNamespace path (pre ++ s :: post) =
      processSplits env ingressNamespace path pre := by
  induction pre with
  | nil => simp [processSplits, hfail]
  | cons a rest ih =>
    simp only [List.cons_append, processSplits]
    cases h : resolveSplit env ingressNamespace path a with
    | none => rfl
    | some cw => simp only [List.append_eq, ih]

/-- A service and endpoints for a resolvable backend `svc-b`. -/
def svcB : Service := Service.mk [ServicePort.mk "http" 80 8080]

/-- Endpoints backing `svc-b`. -/
def epsB : Endpoints := Endpoints.mk [EndpointSubset.mk ["10.1.0.2"]]

/-- An environment where only `svc-b` resolves; every other service's
endpoints and service objects are not found. -/
def envBreak : TranslatorEnv :=
  TranslatorEnv.mk false (fun _ _ => Except.ok ())
    (fun _ name =>
      if name == "svc-b" then GetResult.found epsB else GetResult.notFound)
    (fun _ name =>
      if name == "svc-b" then GetResult.found svcB else GetResult.notFound)
    (fun _ _ => Except.error "unused")

/-- A split whose endpoints are not found. -/
def splitA : IngressSplit := IngressSplit.mk "svc-a" "default" 80 "" 50 []

/-- A split that resolves on its own. -/
def splitB : IngressSplit := IngressSplit.mk "svc-b" "default" 80 "" 50 []

/-- The cluster `splitB` produces at path `/`. -/
def clusterB : Cluster :=
  Cluster.mk "svc-b/" connectTimeout [LbEndpoint.mk "10.1.0.2" 8080] false

/-- The weighted cluster `splitB` produces at path `/`. -/
def weightedB : WeightedCluster := WeightedCluster.mk "svc-b/" 50 []

/-- Counterexample for C3 as stated: `splitB` resolves on its own (second
conjunct), yet when it follows the failing `splitA` in the same path the
loop yields nothing at all for the path — the subsequent split is NOT
processed (first conjunct), contradicting that only the failing split is
skipped. -/
theorem splitFailure_break_cex :
    processSplits envBreak "default" "/" [splitA, splitB] = ([], []) ∧
    processSplits envBreak "default" "/" [splitB] =
      ([clusterB], [weightedB]) := by
  constructor
  · rfl
  · rfl

/-- Witness for C3 (amended) at concrete inputs: a failing split after a
successful one keeps the successful split's output and drops the rest. -/
theorem processSplits_break_skips_rest_witness :
    processSplits envBreak "default" "/" ([splitB] ++ splitA :: [splitB]) =
      processSplits envBreak "default" "/" [splitB] := by
  exact processSplits_break_skips_rest envBreak "default" "/" [splitB]
    [splitB] splitA (by decide)

/-- **C4 (amended).** The port-match loop has no break: the resolved target
port and the h2 protocol-upgrade decision are those of the LAST matching
service port (zero values when no port matches), since every match
overwrites the accumulator. -/
theorem matchServicePort_last_match (ports : List ServicePort)
    (split : IngressSplit) :
    matchServicePort ports split =
      ((ports.filter (portMatches split)).getLast?.map
        (fun p => (p.targetPort, isH2 p.name))).getD (0, false) := by
  induction ports using List.reverseRecOn with
  | nil => rfl
  | append_singleton l a ih =>
    rw [matchServicePort, List.foldl_append]
    by_cases ha : portMatches split a
    · simp [ha, List.filter_append, List.getLast?_concat]
    · rw [List.foldl_cons, List.foldl_nil]
      simp only [ha, Bool.false_eq_true, if_false]
      rw [← matchServicePort, ih]
      simp [List.filter_append, ha]

/-- Service ports where the split's numeric port 80 matches both entries:
the first match would give target 8080 with h2, the last gives 9090 without. -/
def portsC4 : List ServicePort :=
  [ServicePort.mk "http2" 80 8080, ServicePort.mk "http" 80 9090]

/-- A split declaring numeric port 80. -/
def splitC4 : IngressSplit := IngressSplit.mk "svc" "default" 80 "" 100 []

/-- Counterexample for C4 as stated: with two matching service ports the
loop resolves to the last match (9090, no h2), not the first
(8080, h2). -/
theorem matchServicePort_first_cex :
    matchServicePort portsC4 splitC4 = (9090, false) ∧
    ¬ matchServicePort portsC4 splitC4 = (8080, true) := by decide

/-- C5 helper: with no matching service port the loop keeps its zero
values. -/
theorem matchServicePort_of_noMatch (ports : List ServicePort)
    (split : IngressSplit)
    (h : ∀ p ∈ ports, portMatches split p = false) :
    matchServicePort ports split = (0, false) := by
  induction ports with
  | nil => rfl
  | cons a l ih =>
    have ha : portMatches split a = false := h a (List.mem_cons_self a l)
    have hl : ∀ p ∈ l, portMatches split p = false :=
      fun p hp => h p (List.mem_cons_of_mem a hp)
    rw [matchServicePort, List.foldl_cons]
    simp only [ha, Bool.false_eq_true, if_false]
    rw [← matchServicePort]
    exact ih hl

/-- **C5 (amended).** A split whose declared port matches none of the
owning service's declared ports is not detected as a failure at all: no
break occurs and the split is NOT degraded away — a cluster and weighted
cluster are still emitted for it, with the zero-valued resolved target port
(so every endpoint address is listed at port 0) and no h2 upgrade, and the
rule is not aborted. -/
theorem noMatchPort_split_not_skipped (env : TranslatorEnv)
    (ingressNamespace path : String) (split : IngressSplit)
    (endpoints : Endpoints) (service : Service)
    (htrack : trackBreaks env ingressNamespace split = false)
    (heps : env.getEndpoints split.serviceNamespace split.serviceName =
      GetResult.found endpoints)
    (hsvc : env.getService split.serviceNamespace split.serviceName =
      GetResult.found service)
    (hnomatch : ∀ p ∈ service.ports, portMatches split p = false) :
    resolveSplit env ingressNamespace path split =
      some
        (Cluster.mk (split.serviceName ++ path) connectTimeout
          (lbEndpointsForKubeEndpoints endpoints 0) false,
         WeightedCluster.mk (split.serviceName ++ path) split.percent
          split.appendHeaders) := by
  simp [resolveSplit, htrack, heps, hsvc,
    matchServicePort_of_noMatch service.ports split hnomatch]

/-- A service whose only port is http 80 to 8080. -/
def svcC5 : Service := Service.mk [ServicePort.mk "http" 80 8080]

/-- Endpoints with a single address. -/
def epsC5 : Endpoints := Endpoints.mk [EndpointSubset.mk ["10.2.0.9"]]

/-- An environment where every endpoints and service lookup succeeds with
the single-port service above. -/
def envC5 : TranslatorEnv :=
  TranslatorEnv.mk false (fun _ _ => Except.ok ())
    (fun _ _ => GetResult.found epsC5)
    (fun _ _ => GetResult.found svcC5)
    (fun _ _ => Except.error "unused")

/-- A split declaring port 9999 / name "nomatch": no service port
matches. -/
def splitC5 : IngressSplit :=
  IngressSplit.mk "svc-c" "default" 9999 "nomatch" 100 []

/-- Counterexample for C5 as stated: the split's declared port matches no
service port (first conjunct), yet the split loop still emits a cluster and
weighted cluster for it — at target port 0 — rather than degrading the
split away. -/
theorem noMatchPort_emits_cluster_cex :
    (∀ p ∈ svcC5.ports, portMatches splitC5 p = false) ∧
    processSplits envC5 "default" "/" [splitC5] =
      ([Cluster.mk "svc-c/" connectTimeout [LbEndpoint.mk "10.2.0.9" 0] false],
       [WeightedCluster.mk "svc-c/" 100 []]) := by decide

/-- Witness for C5 (amended) at the concrete no-match split. -/
theorem noMatchPort_split_not_skipped_witness :
    resolveSplit envC5 "default" "/" splitC5 =
      some
        (Cluster.mk ("svc-c" ++ "/") connectTimeout
          (lbEndpointsForKubeEndpoints epsC5 0) false,
         WeightedCluster.mk ("svc-c" ++ "/") 100 []) := by
  exact noMatchPort_split_not_skipped envC5 "default" "/" splitC5 epsC5 svcC5
    rfl rfl rfl (by decide)

/-- C6 helper: the TLS loop returns the first failing entry's error once
every earlier entry succeeded. -/
theorem translateTLS_error_of_first_failure (env : TranslatorEnv)
    (t : IngressTLS) (e : String) :
    ∀ pre post : List IngressTLS,
      (∀ t2 ∈ pre, ∃ s, sniMatchFromIngressTLS env t2 = Except.ok s) →
      sniMatchFromIngressTLS env t = Except.error e →
      translateTLS env (pre ++ t :: post) = Except.error e := by
  intro pre
  induction pre with
  | nil =>
    intro post _ hfail
    simp [translateTLS, hfail]
  | cons a rest ih =>
    intro post hpre hfail
    obtain ⟨s, hs⟩ := hpre a (List.mem_cons_self a rest)
    have hrec := ih post
      (fun t2 ht2 => hpre t2 (List.mem_cons_of_mem a ht2)) hfail
    simp [translateTLS, hs, hrec]

/-- **C6.** A TLS entry whose referenced secret fetch or parse fails (once
the entries before it succeeded, so its error is the one hit first) makes
`translateIngress` return exactly that error and no plan: the rule loop is
never entered and the only value produced is the error itself, with no
partially-built state and no retry. -/
theorem tlsError_aborts_translation (env : TranslatorEnv)
    (localDomainName : String) (ingress : Ingress) (index : Nat)
    (extAuthzEnabled : Bool) (pre post : List IngressTLS) (t : IngressTLS)
    (e : String)
    (htls : ingress.tls = pre ++ t :: post)
    (hpre : ∀ t2 ∈ pre, ∃ s, sniMatchFromIngressTLS env t2 = Except.ok s)
    (hfail : sniMatchFromIngressTLS env t = Except.error e) :
    translateIngress env localDomainName ingress index extAuthzEnabled =
      Except.error e := by
  unfold translateIngress
  rw [htls, translateTLS_error_of_first_failure env t e pre post hpre hfail]

/-- An environment whose secret storage has one good secret and errors on
everything else. -/
def envTLS : TranslatorEnv :=
  TranslatorEnv.mk false (fun _ _ => Except.ok ())
    (fun _ _ => GetResult.notFound) (fun _ _ => GetResult.notFound)
    (fun _ name =>
      if name == "good-secret" then Except.ok ("cert", "key")
      else Except.error "secret missing")

/-- A TLS entry referencing the good secret. -/
def tlsGood : IngressTLS := IngressTLS.mk ["a.example.com"] "default" "good-secret"

/-- A TLS entry referencing a missing secret. -/
def tlsBad : IngressTLS := IngressTLS.mk ["b.example.com"] "default" "bad-secret"

/-- A concrete ingress whose second TLS entry references a missing secret. -/
def ingressTLSBad : Ingress :=
  Ingress.mk "ing-tls" "default" [tlsGood, tlsBad]
    [IngressRule.mk ["h.example.com"] []] "" []

/-- Witness for C6 at the concrete ingress: the missing-secret error is
returned as-is (note the rule loop, which would fail with a different
error, is never reached). -/
theorem tlsError_aborts_translation_witness :
    translateIngress envTLS "example.com" ingressTLSBad 0 false =
      Except.error "secret missing" := by
  exact tlsError_aborts_translation envTLS "example.com" ingressTLSBad 0
    false [tlsGood] [] tlsBad "secret missing" rfl
    (by
      intro t2 ht2
      rw [List.mem_singleton] at ht2
      subst ht2
      exact ⟨SNIMatch.mk ["a.example.com"] "cert" "key", rfl⟩)
    rfl

/-- C8 helper: a successful rule loop returns, in rule order, the internal
virtual host of every rule and the external virtual host of exactly the
external rules. -/
theorem processRules_virtualHosts (env : TranslatorEnv)
    (localDomainName : String) (ingress : Ingress) (index : Nat)
    (extAuthzEnabled : Bool) :
    ∀ (rules : List IngressRule)
      (r : List Cluster × List Route × List VirtualHost × List VirtualHost),
      processRules env localDomainName ingress index extAuthzEnabled rules =
        Except.ok r →
      r.2.2.2 = rules.map (fun rule =>
        (ruleVirtualHosts ingress localDomainName extAuthzEnabled rule
          (ruleRouteOf env ingress index rule)).2) ∧
      r.2.2.1 = (rules.filter
          (fun rule => RuleIsExternal rule ingress.visibility)).map
        (fun rule =>
          (ruleVirtualHosts ingress localDomainName extAuthzEnabled rule
            (ruleRouteOf env ingress index rule)).1) := by
  intro rules
  induction rules with
  | nil =>
    intro r hok
    simp only [processRules, Except.ok.injEq] at hok
    subst hok
    simp
  | cons a rest ih =>
    intro r hok
    by_cases hemp : (processPaths env ingress.name ingress.nsName index
        a.paths).2.isEmpty
    · simp [processRules, hemp] at hok
    · cases hrec : processRules env localDomainName ingress index
          extAuthzEnabled rest with
      | error e => simp [processRules, hemp, hrec] at hok
      | ok r0 =>
        have h0 := ih r0 hrec
        simp only [processRules, hemp, Bool.false_eq_true, if_false, hrec,
          Except.ok.injEq] at hok
        subst hok
        constructor
        · simp [List.map_cons, h0.1, ruleRouteOf]
        · by_cases hext : RuleIsExternal a ingress.visibility
          · simp [List.filter_cons, hext, h0.2, ruleRouteOf]
          · simp [List.filter_cons, hext, h0.2, ruleRouteOf]

/-- **C8.** For every successfully translated intent, the internal
virtual-host set lists, in rule order, one entry per rule, and the external
set lists exactly the entries of the rules whose effective visibility is
external; hence an external-visibility rule yields an entry in both sets
and a cluster-local rule only in the internal set. -/
theorem virtualHost_visibility_append (env : TranslatorEnv)
    (localDomainName : String) (ingress : Ingress) (index : Nat)
    (extAuthzEnabled : Bool) (ti : translatedIngress)
    (hok : translateIngress env localDomainName ingress index extAuthzEnabled =
      Except.ok ti) :
    ti.internalVirtualHosts = ingress.rules.map (fun rule =>
      (ruleVirtualHosts ingress localDomainName extAuthzEnabled rule
        (ruleRouteOf env ingress index rule)).2) ∧
    ti.externalVirtualHosts = (ingress.rules.filter
        (fun rule => RuleIsExternal rule ingress.visibility)).map
      (fun rule =>
        (ruleVirtualHosts ingress localDomainName extAuthzEnabled rule
          (ruleRouteOf env ingress index rule)).1) := by
  unfold translateIngress at hok
  cases htls : translateTLS env ingress.tls with
  | error e => rw [htls] at hok; cases hok
  | ok snis =>
    rw [htls] at hok
    cases hpr : processRules env localDomainName ingress index extAuthzEnabled
        ingress.rules with
    | error e => rw [hpr] at hok; cases hok
    | ok r =>
      rw [hpr] at hok
      injection hok with hok
      subst hok
      exact processRules_virtualHosts env localDomainName ingress index
        extAuthzEnabled ingress.rules r hpr

/-- A rule with one path over the resolvable split of `envC5`. -/
def ruleW8 : IngressRule :=
  IngressRule.mk ["h.example.com"]
    [HTTPIngressPath.mk "/" [splitC5] none none []]

/-- A concrete external-visibility ingress with that single rule. -/
def ingressW8 : Ingress :=
  Ingress.mk "ing8" "default" [] [ruleW8] "ExternalIP" []

/-- The plan `ingressW8` translates to under `envC5`. -/
def tiW8 : translatedIngress :=
  match translateIngress envC5 "example.com" ingressW8 0 false with
  | Except.ok ti => ti
  | Except.error _ => translatedIngress.mk "" "" [] [] [] [] []

/-- Witness for C8 at the concrete external-visibility ingress. -/
theorem virtualHost_visibility_append_witness :
    tiW8.internalVirtualHosts = ingressW8.rules.map (fun rule =>
      (ruleVirtualHosts ingressW8 "example.com" false rule
        (ruleRouteOf envC5 ingressW8 0 rule)).2) ∧
    tiW8.externalVirtualHosts = (ingressW8.rules.filter
        (fun rule => RuleIsExternal rule ingressW8.visibility)).map
      (fun rule =>
        (ruleVirtualHosts ingressW8 "example.com" false rule
          (ruleRouteOf envC5 ingressW8 0 rule)).1) :=
  virtualHost_visibility_append envC5 "example.com" ingressW8 0 false tiW8 rfl

/-- C10 helper: a resolved split's cluster and weighted cluster are both
keyed by service name + path. -/
theorem resolveSplit_names (env : TranslatorEnv) (ns path : String)
    (split : IngressSplit) (c : Cluster) (w : WeightedCluster)
    (h : resolveSplit env ns path split = some (c, w)) :
    c.name = split.serviceName ++ path ∧
    w.name = split.serviceName ++ path := by
  unfold resolveSplit at h
  by_cases ht : trackBreaks env ns split = true
  · simp [ht] at h
  · simp only [ht, if_false] at h
    cases heps : env.getEndpoints split.serviceNamespace split.serviceName with
    | notFound => simp [heps] at h
    | otherError e => simp [heps] at h
    | found endpoints =>
      cases hsvc : env.getService split.serviceNamespace split.serviceName with
      | notFound => simp [heps, hsvc] at h
      | otherError e => simp [heps, hsvc] at h
      | found service =>
        simp only [heps, hsvc, Option.some.injEq, Prod.mk.injEq] at h
        obtain ⟨rfl, rfl⟩ := h
        exact ⟨rfl, rfl⟩

/-- **C10.** Two successfully resolved splits are appended one after the
other, each with a fresh cluster definition keyed by service name + path;
with the same service name (and the same path) the two cluster definitions
coexist in the output list under the identical key — nothing is
deduplicated or overwritten. -/
theorem cluster_append_no_dedup (env : TranslatorEnv) (ns path : String)
    (s1 s2 : IngressSplit) (c1 c2 : Cluster) (w1 w2 : WeightedCluster)
    (h1 : resolveSplit env ns path s1 = some (c1, w1))
    (h2 : resolveSplit env ns path s2 = some (c2, w2)) :
    processSplits env ns path [s1, s2] = ([c1, c2], [w1, w2]) ∧
    c1.name = s1.serviceName ++ path ∧
    c2.name = s2.serviceName ++ path ∧
    (s1.serviceName = s2.serviceName → c1.name = c2.name) := by
  refine ⟨by simp [processSplits, h1, h2],
    (resolveSplit_names env ns path s1 c1 w1 h1).1,
    (resolveSplit_names env ns path s2 c2 w2 h2).1, ?_⟩
  intro hname
  rw [(resolveSplit_names env ns path s1 c1 w1 h1).1,
    (resolveSplit_names env ns path s2 c2 w2 h2).1, hname]

/-- A second split targeting the same service `svc-c` with a different
weight. -/
def splitC10 : IngressSplit :=
  IngressSplit.mk "svc-c" "default" 9999 "nomatch" 30 []

/-- The cluster either `svc-c` split produces at path `/`. -/
def clusterC10 : Cluster :=
  Cluster.mk "svc-c/" connectTimeout [LbEndpoint.mk "10.2.0.9" 0] false

/-- Witness for C10: two splits sharing service name and path produce two
coexisting clusters with the identical key `svc-c/`. -/
theorem cluster_append_no_dedup_witness :
    processSplits envC5 "default" "/" [splitC5, splitC10] =
      ([clusterC10, clusterC10],
       [WeightedCluster.mk "svc-c/" 100 [], WeightedCluster.mk "svc-c/" 30 []]) ∧
    clusterC10.name = "svc-c" ++ "/" ∧
    clusterC10.name = "svc-c" ++ "/" ∧
    ("svc-c" = "svc-c" → clusterC10.name = clusterC10.name) :=
  cluster_append_no_dedup envC5 "default" "/" splitC5 splitC10 clusterC10
    clusterC10 (WeightedCluster.mk "svc-c/" 100 [])
    (WeightedCluster.mk "svc-c/" 30 []) rfl rfl
